import Mathlib

/-!
Verification of the serial-to-CSV capture loop
(`src/analyze/serial_data_to_csv.py`).

The script opens a serial port and an output CSV file, writes the fixed
header row, then loops: it reads a line, decodes and strips it, discards
empty lines and echoed header lines, writes valid 6-token lines to the CSV
while counting samples and completed gestures (batches of `numSamples`
valid lines), and warns on malformed lines.  On `KeyboardInterrupt` it
reports the totals.

We embed the loop body as a pure step function `processLine` on an explicit
`CaptureState` (counters, rows written to the sink, warnings and
batch-complete notices printed), with char-level models of Python's
`str.strip`, `str.startswith` and `str.split(',')`.
-/

namespace SerialCapture

/-- Model of Python `str.strip()`: drop whitespace from both ends. -/
def trimChars (l : List Char) : List Char :=
  ((l.dropWhile Char.isWhitespace).reverse.dropWhile Char.isWhitespace).reverse

/-- `line = ser.readline().decode('utf-8').strip()` — the strip part. -/
def strip (s : String) : String :=
  String.mk (trimChars s.data)

/-- Model of Python `str.startswith(pat)` on char lists. -/
def startsWithChars : List Char → List Char → Bool
  | [], _ => true
  | _ :: _, [] => false
  | p :: ps, c :: cs => p == c && startsWithChars ps cs

/-- Model of Python `line.startswith(pat)`. -/
def startsWithStr (s pat : String) : Bool :=
  startsWithChars pat.data s.data

/-- Helper for `splitComma`: accumulate the current token (reversed). -/
def splitCommaAux : List Char → List Char → List (List Char)
  | [], acc => [acc.reverse]
  | c :: cs, acc =>
    if c = ',' then acc.reverse :: splitCommaAux cs []
    else splitCommaAux cs (c :: acc)

/-- Model of Python `line.split(',')`: split on every comma; `""` gives
`[""]`, adjacent commas give empty tokens. -/
def splitComma (s : String) : List String :=
  (splitCommaAux s.data []).map String.mk

/-- Join char-list tokens with commas (inverse of `splitCommaAux`). -/
def joinCommaChars : List (List Char) → List Char
  | [] => []
  | [l] => l
  | l :: ls => l ++ ',' :: joinCommaChars ls

/-- Join string tokens with commas: reconstructs the line a token list
came from. -/
def joinComma (ts : List String) : String :=
  String.mk (joinCommaChars (ts.map String.data))

/-- The literal header `'aX,aY,aZ,gX,gY,gZ'` the Arduino may echo. -/
def headerLine : String := "aX,aY,aZ,gX,gY,gZ"

/-- The header row `['aX', 'aY', 'aZ', 'gX', 'gY', 'gZ']` written by
`writer.writerow` at startup. -/
def header : List String := ["aX", "aY", "aZ", "gX", "gY", "gZ"]

/-- `numSamples = 119` from the script's configuration section. -/
def numSamples : Nat := 119

/-- The warning printed for a malformed line:
`f"⚠ Warning: Unexpected line format (expected 6 values, got {n}): {line}"`. -/
def warnLine (n : Nat) (line : String) : String :=
  "⚠ Warning: Unexpected line format (" ++
    ("expected 6 values, got " ++ toString n) ++ ("): " ++ line)

/-- Prefix check on char lists, for substring search. -/
def leadingChars : List Char → List Char → Bool
  | [], _ => true
  | _ :: _, [] => false
  | p :: ps, c :: cs => p == c && leadingChars ps cs

/-- Substring occurrence on char lists. -/
def containsChars (pat : List Char) : List Char → Bool
  | [] => leadingChars pat []
  | c :: cs => leadingChars pat (c :: cs) || containsChars pat cs

/-- `pat` occurs as a contiguous substring of `s`. -/
def containsSubstr (s pat : String) : Bool :=
  containsChars pat.data s.data

/-- The loop's observable state: the two counters (`samples_collected`
and `Number_of_gestures`), the data rows written to the CSV sink (the
header row excluded), the warnings printed for malformed lines and the
gesture counts printed in batch-complete notices. -/
structure CaptureState where
  samples_collected : Nat
  Number_of_gestures : Nat
  rows : List (List String)
  warnings : List String
  batch_notices : List Nat
deriving Repr, DecidableEq

/-- State right after startup: both counters zero, header already written
to the sink, nothing printed yet. -/
def initState : CaptureState :=
  { samples_collected := 0, Number_of_gestures := 0,
    rows := [], warnings := [], batch_notices := [] }

/-- One iteration of the `while True` loop on an already-decoded raw line:
strip it; if it is non-empty and does not start with the header, split on
commas; with exactly 6 values write the row and bump `samples_collected`,
completing a gesture when it reaches `N`; otherwise print a warning.
Header echoes and empty lines are ignored. -/
def processLine (N : Nat) (s : CaptureState) (raw : String) : CaptureState :=
  let line := strip raw
  if line ≠ "" ∧ startsWithStr line headerLine = false then
    let values := splitComma line
    if values.length = 6 then
      let s1 : CaptureState :=
        { s with rows := s.rows ++ [values],
                 samples_collected := s.samples_collected + 1 }
      if s1.samples_collected = N then
        { s1 with samples_collected := 0,
                  Number_of_gestures := s1.Number_of_gestures + 1,
                  batch_notices := s1.batch_notices ++ [s1.Number_of_gestures + 1] }
      else s1
    else
      { s with warnings := s.warnings ++ [warnLine values.length line] }
  else if startsWithStr line headerLine = true then
    s
  else
    s

/-- Run the loop over a finite stream of decoded lines. -/
def runLines (N : Nat) (s : CaptureState) : List String → CaptureState
  | [] => s
  | raw :: rest => runLines N (processLine N s raw) rest

/-- A line that reaches the `writer.writerow(values)` branch. -/
def isValidLine (raw : String) : Bool :=
  strip raw ≠ "" && !(startsWithStr (strip raw) headerLine)
    && (splitComma (strip raw)).length == 6

/-- The row written for a valid line: its comma-separated tokens. -/
def rowOf (raw : String) : List String :=
  splitComma (strip raw)

/-- A raw serial read: either bytes that decode to a text line, or bytes
on which `.decode('utf-8')` raises `UnicodeDecodeError`. -/
inductive RawInput where
  | decoded : String → RawInput
  | undecodable : RawInput
deriving Repr, DecidableEq

/-- One iteration starting from the raw read: the loop's `try` block only
catches `KeyboardInterrupt`, so a `UnicodeDecodeError` from
`ser.readline().decode('utf-8')` propagates out of the loop. -/
def readAndProcess (N : Nat) (s : CaptureState) :
    RawInput → Except Unit CaptureState
  | .decoded raw => .ok (processLine N s raw)
  | .undecodable => .error ()

/-- Run the loop over raw reads; an uncaught exception ends the run. -/
def runRaw (N : Nat) (s : CaptureState) : List RawInput → Except Unit CaptureState
  | [] => .ok s
  | i :: rest =>
    match readAndProcess N s i with
    | .ok s1 => runRaw N s1 rest
    | .error e => .error e

/-- The full sink contents: the header row written at startup, then the
data rows. -/
def sinkRows (s : CaptureState) : List (List String) :=
  header :: s.rows

/-- The total printed by the `KeyboardInterrupt` handler:
`samples_collected + (Number_of_gestures * numSamples)`. -/
def reportedTotal (N : Nat) (s : CaptureState) : Nat :=
  s.samples_collected + s.Number_of_gestures * N

theorem processLine_of_empty (N : Nat) (s : CaptureState) (raw : String)
    (h : strip raw = "") : processLine N s raw = s := by
  simp [processLine, h]

theorem processLine_of_header (N : Nat) (s : CaptureState) (raw : String)
    (h : startsWithStr (strip raw) headerLine = true) :
    processLine N s raw = s := by
  simp [processLine, h]

theorem processLine_malformed (N : Nat) (s : CaptureState) (raw : String)
    (h1 : strip raw ≠ "") (h2 : startsWithStr (strip raw) headerLine = false)
    (h3 : (splitComma (strip raw)).length ≠ 6) :
    processLine N s raw =
      { s with warnings :=
          s.warnings ++ [warnLine (splitComma (strip raw)).length (strip raw)] } := by
  simp [processLine, h1, h2, h3]

theorem isValidLine_iff (raw : String) :
    isValidLine raw = true ↔
      strip raw ≠ "" ∧ startsWithStr (strip raw) headerLine = false ∧
        (splitComma (strip raw)).length = 6 := by
  simp [isValidLine, Bool.and_eq_true, Bool.not_eq_true', and_assoc]

theorem processLine_valid (N : Nat) (s : CaptureState) (raw : String)
    (h : isValidLine raw = true) :
    processLine N s raw =
      if s.samples_collected + 1 = N then
        { s with rows := s.rows ++ [rowOf raw],
                 samples_collected := 0,
                 Number_of_gestures := s.Number_of_gestures + 1,
                 batch_notices := s.batch_notices ++ [s.Number_of_gestures + 1] }
      else
        { s with rows := s.rows ++ [rowOf raw],
                 samples_collected := s.samples_collected + 1 } := by
  rw [isValidLine_iff] at h
  obtain ⟨h1, h2, h3⟩ := h
  simp [processLine, h1, h2, h3, rowOf]

theorem processLine_not_valid (N : Nat) (s : CaptureState) (raw : String)
    (h : isValidLine raw = false) :
    (processLine N s raw).rows = s.rows ∧
      (processLine N s raw).samples_collected = s.samples_collected ∧
      (processLine N s raw).Number_of_gestures = s.Number_of_gestures ∧
      (processLine N s raw).batch_notices = s.batch_notices := by
  by_cases h1 : strip raw = ""
  · simp [processLine_of_empty N s raw h1]
  · by_cases h2 : startsWithStr (strip raw) headerLine = true
    · simp [processLine_of_header N s raw h2]
    · have h2f : startsWithStr (strip raw) headerLine = false := by
        simpa using h2
      have h3 : (splitComma (strip raw)).length ≠ 6 := by
        intro hc
        have := (isValidLine_iff raw).mpr ⟨h1, h2f, hc⟩
        rw [this] at h
        exact Bool.true_eq_false.mp h
      simp [processLine_malformed N s raw h1 h2f h3]

theorem runLines_cons (N : Nat) (s : CaptureState) (raw : String) (ls : List String) :
    runLines N s (raw :: ls) = runLines N (processLine N s raw) ls := rfl

theorem runLines_all_valid (N : Nat) (hN : 0 < N) :
    ∀ (ls : List String) (s : CaptureState), s.samples_collected < N →
      (∀ r ∈ ls, isValidLine r = true) →
      (runLines N s ls).samples_collected = (s.samples_collected + ls.length) % N ∧
      (runLines N s ls).Number_of_gestures
        = s.Number_of_gestures + (s.samples_collected + ls.length) / N ∧
      (runLines N s ls).rows = s.rows ++ ls.map rowOf := by
  intro ls
  induction ls with
  | nil =>
    intro s hs _
    simp [runLines, Nat.mod_eq_of_lt hs, Nat.div_eq_of_lt hs]
  | cons raw rest ih =>
    intro s hs hv
    have hraw : isValidLine raw = true := hv raw (by simp)
    have hrest : ∀ r ∈ rest, isValidLine r = true := by
      intro r hr; exact hv r (by simp [hr])
    rw [runLines_cons, processLine_valid N s raw hraw]
    by_cases hEq : s.samples_collected + 1 = N
    · rw [if_pos hEq]
      obtain ⟨ha, hb, hc⟩ := ih
        { s with rows := s.rows ++ [rowOf raw],
                 samples_collected := 0,
                 Number_of_gestures := s.Number_of_gestures + 1,
                 batch_notices := s.batch_notices ++ [s.Number_of_gestures + 1] }
        (by simpa using hN) hrest
      refine ⟨?_, ?_, ?_⟩
      · rw [ha]
        have h2 : s.samples_collected + (rest.length + 1) = rest.length + N := by omega
        simp only [List.length_cons, h2]
        rw [Nat.add_mod_right, Nat.zero_add]
      · rw [hb]
        have h2 : s.samples_collected + (rest.length + 1) = rest.length + N := by omega
        simp only [List.length_cons, h2]
        rw [Nat.add_div_right _ hN, Nat.zero_add]
        omega
      · rw [hc]
        simp [List.append_assoc]
    · rw [if_neg hEq]
      have hlt : s.samples_collected + 1 < N := by omega
      obtain ⟨ha, hb, hc⟩ := ih
        { s with rows := s.rows ++ [rowOf raw],
                 samples_collected := s.samples_collected + 1 }
        hlt hrest
      refine ⟨?_, ?_, ?_⟩
      · rw [ha]
        have h2 : s.samples_collected + 1 + rest.length
            = s.samples_collected + (rest.length + 1) := by omega
        simp only [List.length_cons, h2]
      · rw [hb]
        have h2 : s.samples_collected + 1 + rest.length
            = s.samples_collected + (rest.length + 1) := by omega
        simp only [List.length_cons, h2]
      · rw [hc]
        simp [List.append_assoc]

theorem processLine_rows (N : Nat) (s : CaptureState) (raw : String) :
    (processLine N s raw).rows =
      if isValidLine raw = true then s.rows ++ [rowOf raw] else s.rows := by
  by_cases h : isValidLine raw = true
  · rw [if_pos h, processLine_valid N s raw h]
    by_cases hEq : s.samples_collected + 1 = N
    · rw [if_pos hEq]
    · rw [if_neg hEq]
  · rw [if_neg h]
    exact (processLine_not_valid N s raw (by simpa using h)).1

theorem runLines_rows (N : Nat) :
    ∀ (ls : List String) (s : CaptureState),
      (runLines N s ls).rows
        = s.rows ++ (ls.filter (fun r => isValidLine r)).map rowOf := by
  intro ls
  induction ls with
  | nil => intro s; simp [runLines]
  | cons raw rest ih =>
    intro s
    rw [runLines_cons, ih]
    by_cases h : isValidLine raw = true
    · simp [List.filter_cons, h, processLine_rows, List.append_assoc]
    · simp [List.filter_cons, Bool.eq_false_iff.mpr h, processLine_rows, h]

theorem processLine_row_count (N : Nat) (s : CaptureState) (raw : String)
    (h : s.rows.length = s.Number_of_gestures * N + s.samples_collected) :
    (processLine N s raw).rows.length =
      (processLine N s raw).Number_of_gestures * N
        + (processLine N s raw).samples_collected := by
  by_cases hv : isValidLine raw = true
  · rw [processLine_valid N s raw hv]
    by_cases hEq : s.samples_collected + 1 = N
    · rw [if_pos hEq]
      simp only [List.length_append, List.length_cons, List.length_nil]
      rw [Nat.add_mul, Nat.one_mul]
      omega
    · rw [if_neg hEq]
      simp only [List.length_append, List.length_cons, List.length_nil]
      omega
  · obtain ⟨h1, h2, h3, _⟩ := processLine_not_valid N s raw (by simpa using hv)
    rw [h1, h2, h3, h]

theorem runLines_row_count (N : Nat) :
    ∀ (ls : List String) (s : CaptureState),
      s.rows.length = s.Number_of_gestures * N + s.samples_collected →
      (runLines N s ls).rows.length =
        (runLines N s ls).Number_of_gestures * N
          + (runLines N s ls).samples_collected := by
  intro ls
  induction ls with
  | nil => intro s h; exact h
  | cons raw rest ih =>
    intro s h
    rw [runLines_cons]
    exact ih _ (processLine_row_count N s raw h)

theorem runLines_batch (N : Nat) :
    ∀ (ls : List String) (s : CaptureState), 0 < ls.length →
      s.samples_collected + ls.length = N →
      (∀ r ∈ ls, isValidLine r = true) →
      (runLines N s ls).samples_collected = 0 ∧
      (runLines N s ls).Number_of_gestures = s.Number_of_gestures + 1 ∧
      (runLines N s ls).batch_notices
        = s.batch_notices ++ [s.Number_of_gestures + 1] := by
  intro ls
  induction ls with
  | nil => intro s hpos _ _; simp at hpos
  | cons raw rest ih =>
    intro s _ hlen hv
    have hraw : isValidLine raw = true := hv raw (by simp)
    have hrest : ∀ r ∈ rest, isValidLine r = true := by
      intro r hr; exact hv r (by simp [hr])
    rw [runLines_cons, processLine_valid N s raw hraw]
    rcases rest with _ | ⟨r2, rest2⟩
    · have hEq : s.samples_collected + 1 = N := by
        simpa using hlen
      rw [if_pos hEq]
      simp [runLines]
    · have hNe : s.samples_collected + 1 ≠ N := by
        simp only [List.length_cons] at hlen
        omega
      rw [if_neg hNe]
      have hlen2 : s.samples_collected + 1 + (r2 :: rest2).length = N := by
        simp only [List.length_cons] at hlen ⊢
        omega
      obtain ⟨ha, hb, hc⟩ := ih
        { s with rows := s.rows ++ [rowOf raw],
                 samples_collected := s.samples_collected + 1 }
        (by simp) hlen2 hrest
      exact ⟨ha, hb, hc⟩

theorem splitCommaAux_ne_nil : ∀ (cs acc : List Char), splitCommaAux cs acc ≠ [] := by
  intro cs
  induction cs with
  | nil => intro acc; simp [splitCommaAux]
  | cons c cs ih =>
    intro acc
    by_cases hc : c = ','
    · simp [splitCommaAux, hc]
    · simp only [splitCommaAux, if_neg hc]
      exact ih (c :: acc)

theorem joinCommaChars_cons (l : List Char) (ls : List (List Char)) (h : ls ≠ []) :
    joinCommaChars (l :: ls) = l ++ ',' :: joinCommaChars ls := by
  rcases ls with _ | ⟨a, as⟩
  · exact absurd rfl h
  · rfl

theorem joinCommaChars_splitCommaAux :
    ∀ (cs acc : List Char),
      joinCommaChars (splitCommaAux cs acc) = acc.reverse ++ cs := by
  intro cs
  induction cs with
  | nil => intro acc; simp [splitCommaAux, joinCommaChars]
  | cons c cs ih =>
    intro acc
    by_cases hc : c = ','
    · simp only [splitCommaAux, if_pos hc]
      rw [joinCommaChars_cons _ _ (splitCommaAux_ne_nil cs []), ih []]
      simp [hc]
    · simp only [splitCommaAux, if_neg hc]
      rw [ih (c :: acc)]
      simp

theorem joinComma_splitComma (s : String) : joinComma (splitComma s) = s := by
  unfold joinComma splitComma
  rw [List.map_map]
  have hmap : ∀ (ls : List (List Char)), ls.map (String.data ∘ String.mk) = ls := by
    intro ls
    induction ls with
    | nil => rfl
    | cons a as iha => simp [iha]
  rw [hmap, joinCommaChars_splitCommaAux]
  cases s
  simp

theorem splitComma_eq_header (l : String) (h : splitComma l = header) :
    l = headerLine := by
  have h2 := congrArg joinComma h
  rw [joinComma_splitComma] at h2
  rw [h2]
  decide

theorem processLine_header_free (N : Nat) (s : CaptureState) (raw : String)
    (h : header ∉ s.rows) : header ∉ (processLine N s raw).rows := by
  rw [processLine_rows]
  by_cases hv : isValidLine raw = true
  · rw [if_pos hv]
    intro hmem
    rcases List.mem_append.mp hmem with hm | hm
    · exact h hm
    · have heq : rowOf raw = header := by
        exact (List.mem_singleton.mp hm).symm
      have hline : strip raw = headerLine := splitComma_eq_header _ heq
      have h2 := ((isValidLine_iff raw).mp hv).2.1
      rw [hline] at h2
      exact absurd h2 (by decide)
  · rw [if_neg hv]; exact h

theorem runLines_header_free (N : Nat) :
    ∀ (ls : List String) (s : CaptureState),
      header ∉ s.rows → header ∉ (runLines N s ls).rows := by
  intro ls
  induction ls with
  | nil => intro s h; exact h
  | cons raw rest ih =>
    intro s h
    rw [runLines_cons]
    exact ih _ (processLine_header_free N s raw h)

theorem leadingChars_append : ∀ (p rest : List Char), leadingChars p (p ++ rest) = true := by
  intro p
  induction p with
  | nil => intro rest; rfl
  | cons c cs ih =>
    intro rest
    simp only [List.cons_append, leadingChars, beq_self_eq_true, Bool.true_and,
      List.append_eq]
    exact ih rest

theorem containsChars_of_leading (p s : List Char) (h : leadingChars p s = true) :
    containsChars p s = true := by
  cases s with
  | nil => exact h
  | cons c cs => simp [containsChars, h]

theorem containsChars_append :
    ∀ (pre p rest : List Char), containsChars p (pre ++ (p ++ rest)) = true := by
  intro pre
  induction pre with
  | nil =>
    intro p rest
    exact containsChars_of_leading p (p ++ rest) (leadingChars_append p rest)
  | cons c pre ih =>
    intro p rest
    simp only [List.cons_append, containsChars, List.append_eq, ih p rest,
      Bool.or_true]

theorem warnLine_mentions (n : Nat) (line : String) :
    containsSubstr (warnLine n line)
      ("expected 6 values, got " ++ toString n) = true := by
  unfold warnLine containsSubstr
  generalize ("expected 6 values, got " ++ toString n) = M
  rw [String.data_append, String.data_append, List.append_assoc]
  exact containsChars_append _ _ _

theorem processLine_samples_lt (N : Nat) (hN : 0 < N) (s : CaptureState)
    (raw : String) (hs : s.samples_collected < N) :
    (processLine N s raw).samples_collected < N := by
  by_cases hv : isValidLine raw = true
  · rw [processLine_valid N s raw hv]
    by_cases hEq : s.samples_collected + 1 = N
    · rw [if_pos hEq]; exact hN
    · rw [if_neg hEq]
      show s.samples_collected + 1 < N
      omega
  · rw [(processLine_not_valid N s raw (by simpa using hv)).2.1]
    exact hs

theorem processLine_gestures_eq (N : Nat) (s : CaptureState) (raw : String) :
    (processLine N s raw).Number_of_gestures
      = s.Number_of_gestures
        + (if isValidLine raw = true ∧ s.samples_collected + 1 = N then 1 else 0) := by
  by_cases hv : isValidLine raw = true
  · rw [processLine_valid N s raw hv]
    by_cases hEq : s.samples_collected + 1 = N
    · rw [if_pos hEq, if_pos ⟨hv, hEq⟩]
    · rw [if_neg hEq, if_neg (by simp [hEq])]
      rfl
  · rw [(processLine_not_valid N s raw (by simpa using hv)).2.2.1,
      if_neg (by simp [hv])]
    rfl

theorem runLines_samples_lt (N : Nat) (hN : 0 < N) :
    ∀ (ls : List String) (s : CaptureState), s.samples_collected < N →
      (runLines N s ls).samples_collected < N := by
  intro ls
  induction ls with
  | nil => intro s hs; exact hs
  | cons raw rest ih =>
    intro s hs
    rw [runLines_cons]
    exact ih _ (processLine_samples_lt N hN s raw hs)

/-- Claim C1: every trimmed line that is non-empty, does not start with the
header token sequence and splits on commas into exactly 6 tokens makes the
loop append exactly one row to the sink (at the end, hence in arrival
order) and increment `samples_collected` by exactly 1 modulo `N`; over any
stream, the sink rows are exactly the valid lines' token rows in arrival
order. -/
theorem claim_C1 (N : Nat) (s : CaptureState) (raw : String)
    (hs : s.samples_collected < N)
    (h1 : strip raw ≠ "") (h2 : startsWithStr (strip raw) headerLine = false)
    (h3 : (splitComma (strip raw)).length = 6) :
    (processLine N s raw).rows = s.rows ++ [rowOf raw] ∧
    (processLine N s raw).samples_collected = (s.samples_collected + 1) % N ∧
    ∀ (ls : List String) (t : CaptureState),
      (runLines N t ls).rows
        = t.rows ++ (ls.filter (fun r => isValidLine r)).map rowOf := by
  have hv : isValidLine raw = true := (isValidLine_iff raw).mpr ⟨h1, h2, h3⟩
  refine ⟨?_, ?_, ?_⟩
  · rw [processLine_rows, if_pos hv]
  · rw [processLine_valid N s raw hv]
    by_cases hEq : s.samples_collected + 1 = N
    · rw [if_pos hEq, hEq, Nat.mod_self]
    · rw [if_neg hEq]
      show s.samples_collected + 1 = (s.samples_collected + 1) % N
      rw [Nat.mod_eq_of_lt (by omega)]
  · intro ls t
    exact runLines_rows N ls t

/-- Witness for C1 at the valid line `"1,2,3,4,5,6"` with `N = 119`. -/
theorem claim_C1_witness :
    (processLine 119 initState "1,2,3,4,5,6").rows
        = initState.rows ++ [rowOf "1,2,3,4,5,6"] ∧
    (processLine 119 initState "1,2,3,4,5,6").samples_collected
        = (initState.samples_collected + 1) % 119 ∧
    ∀ (ls : List String) (t : CaptureState),
      (runLines 119 t ls).rows
        = t.rows ++ (ls.filter (fun r => isValidLine r)).map rowOf :=
  claim_C1 119 initState "1,2,3,4,5,6" (by decide) (by decide) (by decide)
    (by decide)

/-- Claim C2: a non-empty, non-header line with a token count other than 6
appends no row, leaves both counters (and everything else) unchanged, and
prints exactly one warning — the code's format string — which mentions
"expected 6 values, got n" together with the raw line. -/
theorem claim_C2 (N : Nat) (s : CaptureState) (raw : String)
    (h1 : strip raw ≠ "") (h2 : startsWithStr (strip raw) headerLine = false)
    (h3 : (splitComma (strip raw)).length ≠ 6) :
    processLine N s raw =
      { s with warnings := s.warnings
          ++ [warnLine (splitComma (strip raw)).length (strip raw)] } ∧
    containsSubstr (warnLine (splitComma (strip raw)).length (strip raw))
      ("expected 6 values, got "
        ++ toString (splitComma (strip raw)).length) = true :=
  ⟨processLine_malformed N s raw h1 h2 h3, warnLine_mentions _ _⟩

/-- Witness for C2 at the 3-token line `"1,2,3"`: no row, counters
untouched, and the warning mentions "expected 6 values, got 3". -/
theorem claim_C2_witness :
    (processLine 119 initState "1,2,3" =
      { initState with warnings := initState.warnings
          ++ [warnLine (splitComma (strip "1,2,3")).length (strip "1,2,3")] } ∧
    containsSubstr (warnLine (splitComma (strip "1,2,3")).length (strip "1,2,3"))
      ("expected 6 values, got "
        ++ toString (splitComma (strip "1,2,3")).length) = true) ∧
    containsSubstr (warnLine (splitComma (strip "1,2,3")).length (strip "1,2,3"))
      "expected 6 values, got 3" = true ∧
    containsSubstr (warnLine (splitComma (strip "1,2,3")).length (strip "1,2,3"))
      "1,2,3" = true :=
  ⟨claim_C2 119 initState "1,2,3" (by decide) (by decide) (by decide),
    by decide, by decide⟩

/-- Claim C3: starting with `samples_collected = 0`, feeding exactly `N`
valid lines increments `Number_of_gestures` by exactly 1, resets
`samples_collected` to 0, and prints one batch-complete notice carrying
the incremented gesture count. -/
theorem claim_C3 (N : Nat) (s : CaptureState) (ls : List String)
    (hN : 0 < N) (hs : s.samples_collected = 0) (hlen : ls.length = N)
    (hv : ∀ r ∈ ls, isValidLine r = true) :
    (runLines N s ls).Number_of_gestures = s.Number_of_gestures + 1 ∧
    (runLines N s ls).samples_collected = 0 ∧
    (runLines N s ls).batch_notices
      = s.batch_notices ++ [s.Number_of_gestures + 1] := by
  obtain ⟨ha, hb, hc⟩ := runLines_batch N ls s (by omega) (by omega) hv
  exact ⟨hb, ha, hc⟩

/-- Witness for C3: the spec scenario with `N = 2` and two valid lines. -/
theorem claim_C3_witness :
    (runLines 2 initState ["1,2,3,4,5,6", "7,8,9,10,11,12"]).Number_of_gestures
        = initState.Number_of_gestures + 1 ∧
    (runLines 2 initState ["1,2,3,4,5,6", "7,8,9,10,11,12"]).samples_collected
        = 0 ∧
    (runLines 2 initState ["1,2,3,4,5,6", "7,8,9,10,11,12"]).batch_notices
        = initState.batch_notices ++ [initState.Number_of_gestures + 1] :=
  claim_C3 2 initState ["1,2,3,4,5,6", "7,8,9,10,11,12"] (by decide) (by decide)
    (by decide) (by decide)

/-- Claim C4: if the run is interrupted after `k` complete batches plus `r`
additional valid lines (`0 ≤ r < N`), the `KeyboardInterrupt` summary
`samples_collected + (Number_of_gestures * N)` equals `k*N + r`, and the
sink holds exactly `1 + k*N + r` rows (the header plus one row per valid
line). -/
theorem claim_C4 (N k r : Nat) (ls : List String)
    (hN : 0 < N) (hr : r < N) (hlen : ls.length = k * N + r)
    (hv : ∀ x ∈ ls, isValidLine x = true) :
    reportedTotal N (runLines N initState ls) = k * N + r ∧
    (sinkRows (runLines N initState ls)).length = 1 + (k * N + r) := by
  obtain ⟨ha, hb, hc⟩ := runLines_all_valid N hN ls initState hN hv
  have hsc : (runLines N initState ls).samples_collected = r := by
    rw [ha]
    show (0 + ls.length) % N = r
    rw [Nat.zero_add, hlen, Nat.mul_comm k N, Nat.mul_add_mod,
      Nat.mod_eq_of_lt hr]
  have hgc : (runLines N initState ls).Number_of_gestures = k := by
    rw [hb]
    show 0 + (0 + ls.length) / N = k
    rw [Nat.zero_add, Nat.zero_add, hlen, Nat.mul_comm k N,
      Nat.mul_add_div hN, Nat.div_eq_of_lt hr, Nat.add_zero]
  constructor
  · rw [reportedTotal, hsc, hgc, Nat.add_comm]
  · rw [sinkRows, List.length_cons, hc]
    show ((initState.rows ++ ls.map rowOf).length) + 1 = 1 + (k * N + r)
    simp only [initState, List.nil_append, List.length_map]
    omega

/-- Witness for C4 with `N = 2`, `k = 1`, `r = 1`: three valid lines. -/
theorem claim_C4_witness :
    reportedTotal 2
        (runLines 2 initState ["1,2,3,4,5,6", "7,8,9,10,11,12", "3,4,5,6,7,8"])
      = 1 * 2 + 1 ∧
    (sinkRows
        (runLines 2 initState
          ["1,2,3,4,5,6", "7,8,9,10,11,12", "3,4,5,6,7,8"])).length
      = 1 + (1 * 2 + 1) :=
  claim_C4 2 1 1 ["1,2,3,4,5,6", "7,8,9,10,11,12", "3,4,5,6,7,8"] (by decide)
    (by decide) (by decide) (by decide)

/-- Claim C5: the header row is in the sink exactly once, in first
position (written at startup before any data), no matter what the stream
contains; and any line whose trimmed form starts with the literal header
token sequence is discarded silently, leaving the whole state unchanged. -/
theorem claim_C5 (N : Nat) :
    (∀ ls : List String,
      (sinkRows (runLines N initState ls)).count header = 1 ∧
      (sinkRows (runLines N initState ls)).head? = some header) ∧
    (∀ (s : CaptureState) (raw : String),
      startsWithStr (strip raw) headerLine = true → processLine N s raw = s) := by
  constructor
  · intro ls
    have hfree : header ∉ (runLines N initState ls).rows :=
      runLines_header_free N ls initState (by simp [initState])
    constructor
    · rw [sinkRows, List.count_cons_self, List.count_eq_zero.mpr hfree]
    · rfl
  · intro s raw h
    exact processLine_of_header N s raw h

/-- Witness for C5: a stream that echoes the header; the echoed header is
dropped and the sink still holds the header exactly once. -/
theorem claim_C5_witness :
    (sinkRows (runLines 119 initState
        ["aX,aY,aZ,gX,gY,gZ", "1,2,3,4,5,6"])).count header = 1 ∧
    processLine 119 initState "aX,aY,aZ,gX,gY,gZ" = initState :=
  ⟨((claim_C5 119).1 ["aX,aY,aZ,gX,gY,gZ", "1,2,3,4,5,6"]).1,
    (claim_C5 119).2 initState "aX,aY,aZ,gX,gY,gZ" (by decide)⟩

/-- Claim C6 (code bug evidence): a raw read whose bytes fail UTF-8
decoding raises `UnicodeDecodeError`, which the loop's `try` block (it
only catches `KeyboardInterrupt`) does not confine to the iteration: the
run aborts with the error and the following valid line is never
processed, instead of warning and continuing as the spec intends. -/
theorem claim_C6 :
    readAndProcess numSamples initState RawInput.undecodable
      = Except.error () ∧
    runRaw numSamples initState
        [RawInput.undecodable, RawInput.decoded "1,2,3,4,5,6"]
      = Except.error () ∧
    runRaw numSamples initState
        [RawInput.decoded "1,2,3,4,5,6", RawInput.undecodable]
      = Except.error () :=
  ⟨rfl, rfl, rfl⟩

/-- Claim C7: the row written for a valid line is its 6 comma-separated
tokens, verbatim: joining the written tokens back with commas reproduces
the trimmed input line character for character. -/
theorem claim_C7 (N : Nat) (s : CaptureState) (raw : String)
    (h1 : strip raw ≠ "") (h2 : startsWithStr (strip raw) headerLine = false)
    (h3 : (splitComma (strip raw)).length = 6) :
    (processLine N s raw).rows = s.rows ++ [splitComma (strip raw)] ∧
    joinComma (splitComma (strip raw)) = strip raw := by
  have hv : isValidLine raw = true := (isValidLine_iff raw).mpr ⟨h1, h2, h3⟩
  constructor
  · rw [processLine_rows, if_pos hv]; rfl
  · exact joinComma_splitComma (strip raw)

/-- Witness for C7 at a decimal sensor line. -/
theorem claim_C7_witness :
    (processLine 119 initState "0.219,-0.046,1.023,1.831,3.174,-0.300").rows
        = initState.rows
          ++ [splitComma (strip "0.219,-0.046,1.023,1.831,3.174,-0.300")] ∧
    joinComma (splitComma (strip "0.219,-0.046,1.023,1.831,3.174,-0.300"))
        = strip "0.219,-0.046,1.023,1.831,3.174,-0.300" :=
  claim_C7 119 initState "0.219,-0.046,1.023,1.831,3.174,-0.300" (by decide)
    (by decide) (by decide)

/-- Claim C8: a line that is empty after trimming (e.g. the empty read a
timeout produces) changes nothing at all: no row, no warning, no counter
update, no notice — the loop just continues. -/
theorem claim_C8 (N : Nat) (s : CaptureState) (raw : String)
    (h : strip raw = "") : processLine N s raw = s :=
  processLine_of_empty N s raw h

/-- Witness for C8 at the timeout read `""` and the blank line `"\r\n"`. -/
theorem claim_C8_witness :
    processLine 119 initState "" = initState ∧
    processLine 119 initState "\r\n" = initState :=
  ⟨claim_C8 119 initState "" (by decide),
    claim_C8 119 initState "\r\n" (by decide)⟩

/-- Claim C9: whenever `samples_collected < N` holds before an iteration
(`0 < N`), it holds after, so `samples_collected` stays in `0..N-1`;
`Number_of_gestures` never decreases, and it grows by exactly 1 precisely
when a valid line completes a batch of `N`; over any stream from startup,
`samples_collected` stays below `N`. -/
theorem claim_C9 (N : Nat) (hN : 0 < N) :
    (∀ (s : CaptureState) (raw : String), s.samples_collected < N →
      ((processLine N s raw).samples_collected < N ∧
       s.Number_of_gestures ≤ (processLine N s raw).Number_of_gestures ∧
       (processLine N s raw).Number_of_gestures
         = s.Number_of_gestures
           + (if isValidLine raw = true ∧ s.samples_collected + 1 = N
              then 1 else 0))) ∧
    (∀ ls : List String, (runLines N initState ls).samples_collected < N) := by
  constructor
  · intro s raw hs
    refine ⟨processLine_samples_lt N hN s raw hs, ?_, processLine_gestures_eq N s raw⟩
    rw [processLine_gestures_eq N s raw]
    omega
  · intro ls
    exact runLines_samples_lt N hN ls initState hN

/-- Witness for C9 at `N = 119` on a mixed stream. -/
theorem claim_C9_witness :
    (runLines 119 initState ["1,2,3,4,5,6", "", "1,2,3", "aX,aY,aZ,gX,gY,gZ"]
      ).samples_collected < 119 :=
  (claim_C9 119 (by decide)).2 ["1,2,3,4,5,6", "", "1,2,3", "aX,aY,aZ,gX,gY,gZ"]

/-- Claim C10 (implicit invariant): at every iteration boundary of a run
from startup, the number of data rows written to the sink equals
`Number_of_gestures * N + samples_collected`. -/
theorem claim_C10 (N : Nat) (ls : List String) :
    (runLines N initState ls).rows.length
      = (runLines N initState ls).Number_of_gestures * N
        + (runLines N initState ls).samples_collected :=
  runLines_row_count N ls initState (by simp [initState])

end SerialCapture
